import Mathlib

/-!
Verification of the Threat Intelligence Platform ETL pipeline.

Shallow embedding of the ingestion code: the SQL tables are modelled as
lists of rows, an SQL `INSERT ... ON CONFLICT (key) DO UPDATE` becomes an
update-or-append transformation on such a list, Python dictionaries become
structures whose optional entries are `Option` fields, and the network is
an oracle parameter.  Machine floats that the code merely moves around
(CVSS scores) are modelled as rationals.
-/

namespace TIP

/-- Python truthiness of an optional string: `None` and the empty string
are falsy, every other string is truthy. -/
def pyTruthyStr : Option String → Bool
  | none => false
  | some s => decide (s ≠ "")

/-- Python `a or b` on optional strings: the first operand if it is
truthy, otherwise the second. -/
def pyOr (a b : Option String) : Option String :=
  if pyTruthyStr a then a else b

/-- SQL `COALESCE(a, b)`: `a` when `a` is not NULL, otherwise `b`.
Note that an SQL empty string is not NULL. -/
def coalesce (a b : Option String) : Option String :=
  match a with
  | some v => some v
  | none => b

/-- SQL `INSERT ... ON CONFLICT (key) DO UPDATE` against a list-of-rows
table: when a row with the new key exists the rows carrying that key are
rewritten by the conflict action `upd`, otherwise the new row is appended. -/
def upsertRow {α β : Type} [DecidableEq β] (key : α → β) (upd : α → α → α)
    (db : List α) (new : α) : List α :=
  if ∃ old ∈ db, key old = key new then
    db.map (fun r => if key r = key new then upd r new else r)
  else db ++ [new]

/-- The rows of a table carrying a given key. -/
def rowsWithKey {α β : Type} [DecidableEq β] (key : α → β) (k : β)
    (db : List α) : List α :=
  db.filter (fun r => key r = k)

theorem upsertRow_idem {α β : Type} [DecidableEq β] (key : α → β) (upd : α → α → α)
    (hkey : ∀ o n, key (upd o n) = key o)
    (hupd : ∀ o n, upd (upd o n) n = upd o n)
    (hself : ∀ n, upd n n = n)
    (db : List α) (new : α) :
    upsertRow key upd (upsertRow key upd db new) new = upsertRow key upd db new := by
  by_cases h : ∃ old ∈ db, key old = key new
  · obtain ⟨r0, hr0, hk0⟩ := h
    have h1 : upsertRow key upd db new
        = db.map (fun r => if key r = key new then upd r new else r) := by
      simp only [upsertRow, if_pos (⟨r0, hr0, hk0⟩ : ∃ old ∈ db, key old = key new)]
    have h2 : ∃ old ∈ upsertRow key upd db new, key old = key new := by
      refine ⟨upd r0 new, ?_, by rw [hkey, hk0]⟩
      rw [h1]
      exact List.mem_map.mpr ⟨r0, hr0, by rw [if_pos hk0]⟩
    rw [h1] at h2 ⊢
    simp only [upsertRow, if_pos h2, List.map_map]
    apply List.map_congr_left
    intro r _
    by_cases hr : key r = key new
    · simp only [Function.comp, if_pos hr, hkey, if_pos hr, hupd]
    · simp only [Function.comp, if_neg hr]
  · have h1 : upsertRow key upd db new = db ++ [new] := by
      simp only [upsertRow, if_neg h]
    have h2 : ∃ old ∈ upsertRow key upd db new, key old = key new := by
      exact ⟨new, by rw [h1]; simp, rfl⟩
    rw [h1] at h2 ⊢
    simp only [upsertRow, if_pos h2]
    rw [List.map_append]
    have hdb : db.map (fun r => if key r = key new then upd r new else r) = db := by
      have hmc : db.map (fun r => if key r = key new then upd r new else r) = db.map id := by
        apply List.map_congr_left
        intro r hr
        have : ¬ key r = key new := fun hc => h ⟨r, hr, hc⟩
        simp [this]
      simpa using hmc
    rw [hdb]
    simp [hself]

theorem rowsWithKey_length_one_of_nodup {α β : Type} [DecidableEq β]
    (key : α → β) (k : β) :
    ∀ db : List α, (db.map key).Nodup → k ∈ db.map key →
      (rowsWithKey key k db).length = 1 := by
  intro db
  induction db with
  | nil => intro _ hk; simp at hk
  | cons a tl ih =>
    intro hnd hk
    simp only [List.map_cons, List.nodup_cons] at hnd
    by_cases ha : key a = k
    · have htl : ∀ r ∈ tl, ¬ key r = k := by
        intro r hr hc
        exact hnd.1 (by rw [ha]; exact hc ▸ List.mem_map_of_mem key hr)
      have hemp : rowsWithKey key k tl = [] := by
        simp only [rowsWithKey, List.filter_eq_nil_iff]
        intro r hr
        simpa using htl r hr
      have hfil : rowsWithKey key k (a :: tl) = a :: rowsWithKey key k tl := by
        simp [rowsWithKey, List.filter_cons, ha]
      rw [hfil, hemp]
      rfl
    · have hk2 : k ∈ tl.map key := by
        rcases List.mem_cons.mp hk with h | h
        · exact absurd h.symm ha
        · exact h
      have := ih hnd.2 hk2
      simpa [rowsWithKey, List.filter_cons, ha] using this

theorem upsertRow_count {α β : Type} [DecidableEq β] (key : α → β) (upd : α → α → α)
    (hkey : ∀ o n, key (upd o n) = key o)
    (db : List α) (new : α) (hnodup : (db.map key).Nodup) :
    (rowsWithKey key (key new) (upsertRow key upd db new)).length = 1 := by
  by_cases h : ∃ old ∈ db, key old = key new
  · obtain ⟨r0, hr0, hk0⟩ := h
    have h1 : upsertRow key upd db new
        = db.map (fun r => if key r = key new then upd r new else r) := by
      simp only [upsertRow, if_pos (⟨r0, hr0, hk0⟩ : ∃ old ∈ db, key old = key new)]
    have hpres : (db.map (fun r => if key r = key new then upd r new else r)).map key
        = db.map key := by
      rw [List.map_map]
      apply List.map_congr_left
      intro r _
      by_cases hr : key r = key new
      · simp [Function.comp, hr, hkey]
      · simp [Function.comp, hr]
    have hmem : key new ∈ (db.map (fun r => if key r = key new then upd r new else r)).map key := by
      rw [hpres]
      exact hk0 ▸ List.mem_map_of_mem key hr0
    have hnd2 : ((db.map (fun r => if key r = key new then upd r new else r)).map key).Nodup := by
      rw [hpres]; exact hnodup
    rw [h1]
    exact rowsWithKey_length_one_of_nodup key (key new) _ hnd2 hmem
  · have h1 : upsertRow key upd db new = db ++ [new] := by
      simp only [upsertRow, if_neg h]
    have hdb : rowsWithKey key (key new) db = [] := by
      simp only [rowsWithKey, List.filter_eq_nil_iff]
      intro r hr
      simpa using fun hc => h ⟨r, hr, hc⟩
    rw [h1]
    simp only [rowsWithKey, List.filter_append]
    simp only [rowsWithKey] at hdb
    rw [hdb]
    simp

theorem upsertRow_update_mem {α β : Type} [DecidableEq β] (key : α → β) (upd : α → α → α)
    (db : List α) (new old : α) (h : old ∈ db) (hk : key old = key new) :
    upd old new ∈ upsertRow key upd db new := by
  have hex : ∃ o ∈ db, key o = key new := ⟨old, h, hk⟩
  simp only [upsertRow, if_pos hex]
  exact List.mem_map.mpr ⟨old, h, by rw [if_pos hk]⟩

theorem upsertRow_key_prop {α β : Type} [DecidableEq β] (key : α → β) (upd : α → α → α)
    (db : List α) (new : α) (P : α → Prop)
    (hPnew : P new) (hPupd : ∀ o, key o = key new → P (upd o new)) :
    ∀ r ∈ upsertRow key upd db new, key r = key new → P r := by
  intro r hr hkr
  by_cases h : ∃ old ∈ db, key old = key new
  · simp only [upsertRow, if_pos h] at hr
    obtain ⟨x, hx, hfx⟩ := List.mem_map.mp hr
    by_cases hxk : key x = key new
    · rw [if_pos hxk] at hfx
      exact hfx ▸ hPupd x hxk
    · rw [if_neg hxk] at hfx
      exact absurd (hfx ▸ hkr) hxk
  · simp only [upsertRow, if_neg h, List.mem_append, List.mem_singleton] at hr
    rcases hr with hin | rfl
    · exact absurd ⟨r, hin, hkr⟩ h
    · exact hPnew

/-- Outcome a task writes into the data-source status column.
The code formats these as strings (SUCCESS with a processed count,
ERROR with the exception text, SKIPPED with a reason). -/
inductive Status
  | success (n : Nat)
  | errored
  | skipped (msg : String)
deriving DecidableEq, Repr

/-! ### Advisory table and its upserts

`workers/etl/db.py`, function `upsert_advisory`: table "Advisory", keyed
by id, with `summary = COALESCE(EXCLUDED.summary, "Advisory".summary)`
and likewise for summaryTech; `tags` is not touched by the conflict
action.  The row fields are the parameters of the SQL statement; the
raw payload is kept as an opaque string. -/

structure AdvisoryRow where
  id : String
  source : String
  title : Option String
  link : Option String
  publishedAt : Option String
  sourceRaw : String
  summary : Option String
  summaryTech : Option String
  tags : List String
deriving DecidableEq, Repr

/-- The `ON CONFLICT (id) DO UPDATE SET` clause of `upsert_advisory`. -/
def dbAdvisoryUpdate (old new : AdvisoryRow) : AdvisoryRow :=
  { old with
    source := new.source
    title := new.title
    link := new.link
    publishedAt := new.publishedAt
    sourceRaw := new.sourceRaw
    summary := coalesce new.summary old.summary
    summaryTech := coalesce new.summaryTech old.summaryTech }

/-- `db.py` `upsert_advisory` acting on the "Advisory" table. -/
def upsert_advisory (db : List AdvisoryRow) (new : AdvisoryRow) : List AdvisoryRow :=
  upsertRow AdvisoryRow.id dbAdvisoryUpdate db new

/-- Row of the `advisories` table written by `task_ghsa_pull` and
`task_rss_pull_all` in `workers/etl/tasks.py`.  That insert generates a
random uuid id and conflicts on "sourceUrl", so the uuid is not part of
the model. -/
structure GhsaAdvRow where
  orgId : String
  title : String
  content : String
  summary : String
  summaryTech : String
  source : String
  sourceUrl : Option String
  publishedAt : Option String
  updatedAt : Option String
  createdAt : Option String
deriving DecidableEq, Repr

/-- The `ON CONFLICT ("sourceUrl") DO UPDATE SET` clause of the advisory
upsert in `task_ghsa_pull` / `task_rss_pull_all`: summaries are taken
from the excluded row unconditionally.  (The trailing
`WHERE advisories."sourceUrl" = EXCLUDED."sourceUrl"` of the statement
always holds on a conflict of that key.) -/
def ghsaAdvUpdate (old new : GhsaAdvRow) : GhsaAdvRow :=
  { old with
    title := new.title
    content := new.content
    summary := new.summary
    summaryTech := new.summaryTech
    publishedAt := new.publishedAt
    updatedAt := new.updatedAt }

/-- The advisory upsert of `task_ghsa_pull`, keyed by sourceUrl. -/
def ghsaTaskAdvUpsert (db : List GhsaAdvRow) (new : GhsaAdvRow) : List GhsaAdvRow :=
  upsertRow GhsaAdvRow.sourceUrl ghsaAdvUpdate db new

/-! ### The shape of an upstream CVE record

Model of the JSON dictionary the NVD code walks.  `Option` marks a key
that may be absent; in particular `cvssMetricV31 = some []` is the key
present with an empty array, while `none` is the key absent. -/

structure LangValue where
  lang : Option String
  value : Option String
deriving DecidableEq, Repr

structure CvssData where
  baseScore : Option ℚ
  baseSeverity : Option String
  vectorString : Option String
deriving DecidableEq, Repr

structure CvssEntry where
  cvssData : Option CvssData
deriving DecidableEq, Repr

structure CpeMatch where
  vulnerable : Bool
  criteria : Option String
deriving DecidableEq, Repr

structure ConfigNode where
  cpeMatch : List CpeMatch
deriving DecidableEq, Repr

structure Configuration where
  nodes : List ConfigNode
deriving DecidableEq, Repr

structure Weakness where
  description : List LangValue
deriving DecidableEq, Repr

structure CveJson where
  id : Option String
  cveDataMetaId : Option String
  descriptions : List LangValue
  cvssMetricV31 : Option (List CvssEntry)
  cvssMetricV3 : Option (List CvssEntry)
  weaknesses : List Weakness
  configurations : List Configuration
  published : Option String
  lastModified : Option String
deriving DecidableEq, Repr

/-! ### db.py upsert_cve -/

/-- Row of the "Cve" table of `db.py`; `sourceRaw` keeps the whole
upstream record. -/
structure DbCveRow where
  id : String
  publishedAt : Option String
  modifiedAt : Option String
  sourceRaw : CveJson
  cvssScore : Option ℚ
  cvssSeverity : Option String
  cwes : List String
  cpes : List String
  isKev : Bool
deriving DecidableEq, Repr

/-- `db.py` score extraction:
`metrics = (cve.get(metrics) or {}).get(cvssMetricV31) or []`, then when
non-empty `m = metrics[0].get(cvssData, {})` and base score/severity are
looked up in `m`. -/
def dbCveScoreSeverity (cve : CveJson) : Option ℚ × Option String :=
  match cve.cvssMetricV31.getD [] with
  | [] => (none, none)
  | e :: _ =>
    match e.cvssData with
    | none => (none, none)
    | some m => (m.baseScore, m.baseSeverity)

/-- `db.py` CWE extraction: every truthy `value` of every weakness
description. -/
def dbCveCwes (cve : CveJson) : List String :=
  (cve.weaknesses.flatMap Weakness.description).filterMap
    (fun d => if pyTruthyStr d.value then d.value else none)

/-- `db.py` CPE extraction: every truthy `criteria` of every cpeMatch. -/
def dbCveCpes (cve : CveJson) : List String :=
  (((cve.configurations.flatMap Configuration.nodes).flatMap
    ConfigNode.cpeMatch)).filterMap
    (fun m => if pyTruthyStr m.criteria then m.criteria else none)

/-- The row `upsert_cve` inserts for identifier `cid`: note
`isKev = (cve_id in kev_ids)` is part of the inserted (and on conflict,
updated) values. -/
def dbCveRowOf (cve : CveJson) (kevIds : List String) (cid : String) : DbCveRow :=
  { id := cid
    publishedAt := cve.published
    modifiedAt := cve.lastModified
    sourceRaw := cve
    cvssScore := (dbCveScoreSeverity cve).1
    cvssSeverity := (dbCveScoreSeverity cve).2
    cwes := dbCveCwes cve
    cpes := dbCveCpes cve
    isKev := kevIds.contains cid }

/-- The `ON CONFLICT (id) DO UPDATE SET` clause of `upsert_cve`: every
column, including `isKev`, is taken from the excluded row. -/
def dbCveUpdate (old new : DbCveRow) : DbCveRow :=
  { old with
    publishedAt := new.publishedAt
    modifiedAt := new.modifiedAt
    sourceRaw := new.sourceRaw
    cvssScore := new.cvssScore
    cvssSeverity := new.cvssSeverity
    cwes := new.cwes
    cpes := new.cpes
    isKev := new.isKev }

/-- `db.py` `upsert_cve`: the identifier is `cve.get(id)` with the
`CVE_data_meta` fallback, and a falsy identifier returns without
touching the table. -/
def upsert_cve (db : List DbCveRow) (cve : CveJson) (kevIds : List String) :
    List DbCveRow :=
  match pyOr cve.id cve.cveDataMetaId with
  | none => db
  | some cid =>
    if cid = "" then db
    else upsertRow DbCveRow.id dbCveUpdate db (dbCveRowOf cve kevIds cid)

/-! ### The shape of an upstream OSV record and db.py upsert_osv -/

structure OsvPackage where
  ecosystem : Option String
  name : Option String
deriving DecidableEq, Repr

structure OsvAffected where
  package : Option OsvPackage
deriving DecidableEq, Repr

structure OsvSeverityEntry where
  type : Option String
  score : Option String
deriving DecidableEq, Repr

structure OsvJson where
  id : Option String
  summary : Option String
  affected : List OsvAffected
  severity : List OsvSeverityEntry
  published : Option String
  modified : Option String
deriving DecidableEq, Repr

/-- Row of the "OsvVuln" table of `db.py`. -/
structure DbOsvRow where
  id : Option String
  ecosystem : Option String
  package : Option String
  affected : List OsvAffected
  sourceRaw : OsvJson
  publishedAt : Option String
  modifiedAt : Option String
  cvssScore : Option ℚ
  cvssSeverity : Option String
deriving DecidableEq, Repr

/-- The row `upsert_osv` inserts: ecosystem and package come from the
first affected entry when the list is non-empty; the function assigns
`severity = sev.get(type)` from the first severity entry and never
assigns a score, both modelled as written. -/
def dbOsvRowOf (v : OsvJson) : DbOsvRow :=
  { id := v.id
    ecosystem :=
      match v.affected with
      | [] => none
      | a :: _ => a.package.bind OsvPackage.ecosystem
    package :=
      match v.affected with
      | [] => none
      | a :: _ => a.package.bind OsvPackage.name
    affected := v.affected
    sourceRaw := v
    publishedAt := v.published
    modifiedAt := v.modified
    cvssScore := none
    cvssSeverity :=
      match v.severity with
      | [] => none
      | s :: _ => s.type }

/-- The `ON CONFLICT (id) DO UPDATE SET` clause of `upsert_osv`:
every non-key column is overwritten. -/
def dbOsvUpdate (old new : DbOsvRow) : DbOsvRow :=
  { old with
    ecosystem := new.ecosystem
    package := new.package
    affected := new.affected
    sourceRaw := new.sourceRaw
    publishedAt := new.publishedAt
    modifiedAt := new.modifiedAt
    cvssScore := new.cvssScore
    cvssSeverity := new.cvssSeverity }

/-- `db.py` `upsert_osv`: keyed by `v.get(id)` with no guard on its
absence. -/
def upsert_osv (db : List DbOsvRow) (v : OsvJson) : List DbOsvRow :=
  upsertRow DbOsvRow.id dbOsvUpdate db (dbOsvRowOf v)

/-! ### tasks.py: the cves table, the NVD pull and the KEV sync -/

/-- Row of the `cves` table written by `workers/etl/tasks.py`. -/
structure TCveRow where
  id : String
  orgId : String
  description : String
  severity : Option String
  baseScore : Option ℚ
  vector : Option String
  cweIds : List String
  cpes : List String
  publishedAt : Option String
  updatedAt : Option String
  createdAt : Option String
  isKev : Bool
deriving DecidableEq, Repr

/-- The values extracted from one upstream record by the loop body of
`task_nvd_pull`. -/
structure NvdParsed where
  id : String
  description : String
  severity : Option String
  baseScore : Option ℚ
  vector : Option String
  cweIds : List String
  cpes : List String
  publishedAt : Option String
deriving DecidableEq, Repr

/-- Exceptions a Python dictionary/list access can raise. -/
inductive PyErr
  | indexError
  | keyError
deriving DecidableEq, Repr

/-- `description = next((d[value] for d in descriptions if d.get(lang) == en), empty)`:
the first description in English; the subscript on its `value` raises
when the key is missing. -/
def nvdDescription (c : CveJson) : Except PyErr String :=
  match c.descriptions.find? (fun d => d.lang = some "en") with
  | none => Except.ok ""
  | some d =>
    match d.value with
    | none => Except.error PyErr.keyError
    | some v => Except.ok v

/-- `metrics[cvssMetricV31][0][cvssData]` on a present metrics key:
subscript `[0]` raises on an empty array and `[cvssData]` raises when
that key is absent. -/
def nvdCvssOf (l : List CvssEntry) : Except PyErr (Option ℚ × Option String × Option String) :=
  match l with
  | [] => Except.error PyErr.indexError
  | e :: _ =>
    match e.cvssData with
    | none => Except.error PyErr.keyError
    | some m => Except.ok (m.baseScore, m.baseSeverity, m.vectorString)

/-- The metrics branch of `task_nvd_pull`: `cvssMetricV31` when that key
is present, else `cvssMetricV3` when present, else no metrics. -/
def nvdCvss (c : CveJson) : Except PyErr (Option ℚ × Option String × Option String) :=
  match c.cvssMetricV31 with
  | some l => nvdCvssOf l
  | none =>
    match c.cvssMetricV3 with
    | some l => nvdCvssOf l
    | none => Except.ok (none, none, none)

/-- `task_nvd_pull` CWE extraction: for every weakness description in
English, append `desc.get(value, empty)`. -/
def nvdCweIds (c : CveJson) : List String :=
  (c.weaknesses.flatMap Weakness.description).filterMap
    (fun d => if d.lang = some "en" then some (d.value.getD "") else none)

/-- `task_nvd_pull` CPE extraction: the criteria (or empty string) of
every vulnerable cpeMatch. -/
def nvdCpes (c : CveJson) : List String :=
  (((c.configurations.flatMap Configuration.nodes).flatMap
    ConfigNode.cpeMatch)).filterMap
    (fun m => if m.vulnerable then some (m.criteria.getD "") else none)

/-- The loop body of `task_nvd_pull` over one record: a falsy id is a
`continue` (result `ok none`); the description and metrics extraction
can raise; the published timestamp is parsed inside try/except, so a bad
value cannot raise, and the timestamp is kept as its source string. -/
def parseNvdRecord (c : CveJson) : Except PyErr (Option NvdParsed) :=
  if pyTruthyStr c.id then
    match c.id with
    | none => Except.ok none
    | some cid => do
      let desc ← nvdDescription c
      let m ← nvdCvss c
      Except.ok (some
        { id := cid
          description := desc
          severity := m.2.1
          baseScore := m.1
          vector := m.2.2
          cweIds := nvdCweIds c
          cpes := nvdCpes c
          publishedAt := c.published })
  else Except.ok none

/-- The row the `task_nvd_pull` upsert inserts.  `isKev` is absent from
the column list of that INSERT, so a fresh row takes the schema default,
modelled as `false`. -/
def nvdRowOf (now : String) (p : NvdParsed) : TCveRow :=
  { id := p.id
    orgId := "default_org"
    description := p.description
    severity := p.severity
    baseScore := p.baseScore
    vector := p.vector
    cweIds := p.cweIds
    cpes := p.cpes
    publishedAt := p.publishedAt
    updatedAt := some now
    createdAt := some now
    isKev := false }

/-- The `ON CONFLICT (id) DO UPDATE SET` clause of the `task_nvd_pull`
upsert: derived fields and updatedAt are overwritten, `orgId`,
`createdAt` and `isKev` are not mentioned and keep their stored values. -/
def nvdTaskUpdate (old new : TCveRow) : TCveRow :=
  { old with
    description := new.description
    severity := new.severity
    baseScore := new.baseScore
    vector := new.vector
    cweIds := new.cweIds
    cpes := new.cpes
    publishedAt := new.publishedAt
    updatedAt := new.updatedAt }

/-- The CVE upsert of `task_nvd_pull` against the `cves` table. -/
def taskNvdUpsert (now : String) (store : List TCveRow) (p : NvdParsed) :
    List TCveRow :=
  upsertRow TCveRow.id nvdTaskUpdate store (nvdRowOf now p)

/-- The record loop of `task_nvd_pull`: skipped records do not count,
an extraction exception aborts the loop. -/
def nvdLoop (now : String) (batch : List CveJson) (store : List TCveRow)
    (n : Nat) : Except PyErr (List TCveRow × Nat) :=
  match batch with
  | [] => Except.ok (store, n)
  | c :: rest =>
    match parseNvdRecord c with
    | Except.error e => Except.error e
    | Except.ok none => nvdLoop now rest store n
    | Except.ok (some p) => nvdLoop now rest (taskNvdUpsert now store p) (n + 1)

/-- `task_nvd_pull` over a fetched batch: on success the transaction is
committed and the SUCCESS count recorded; an exception reaches the outer
handler, the connection is closed without commit (discarding every
upsert of the run) and an ERROR status is recorded before re-raising. -/
def task_nvd_pull (now : String) (batch : List CveJson) (store : List TCveRow) :
    List TCveRow × Status :=
  match nvdLoop now batch store 0 with
  | Except.ok (store2, n) => (store2, Status.success n)
  | Except.error _ => (store, Status.errored)

/-- Phase (a) of `task_cisa_kev_sync`: `UPDATE cves SET isKev = false`. -/
def kevClear (db : List TCveRow) : List TCveRow :=
  db.map (fun r => { r with isKev := false })

/-- Phase (b) of `task_cisa_kev_sync`: flag the stored rows whose id is
in the snapshot, stamping updatedAt. -/
def kevMark (now : String) (snapshot : List String) (db : List TCveRow) :
    List TCveRow :=
  db.map (fun r =>
    if snapshot.contains r.id then { r with isKev := true, updatedAt := some now }
    else r)

/-- `task_cisa_kev_sync`: clear every flag, re-flag the snapshot members
(phase (b) is guarded by the snapshot being non-empty), then report
`SELECT COUNT(*) FROM cves WHERE isKev = true` as the success count. -/
def task_cisa_kev_sync (now : String) (snapshot : List String)
    (db : List TCveRow) : List TCveRow × Status :=
  let cleared := kevClear db
  let marked := if snapshot.isEmpty then cleared else kevMark now snapshot cleared
  (marked, Status.success ((marked.filter (fun r => r.isKev)).length))

/-! ### tasks.py: the OSV pull -/

/-- Row of the `osv_vulns` table written by `task_osv_pull`. -/
structure OsvTaskRow where
  id : String
  orgId : String
  ecosystem : String
  packageName : Option String
  summary : String
  severity : Option String
  publishedAt : Option String
  updatedAt : Option String
  createdAt : Option String
deriving DecidableEq, Repr

/-- The fixed ecosystem list of `task_osv_pull`. -/
def osvEcosystems : List String :=
  ["npm", "PyPI", "Go", "Maven", "NuGet", "RubyGems"]

/-- The row the `task_osv_pull` upsert inserts for one record; the
`ecosystem` column is the loop variable, not a record field. -/
def osvTaskRowOf (now : String) (eco : String) (vid : String) (v : OsvJson) :
    OsvTaskRow :=
  { id := vid
    orgId := "default_org"
    ecosystem := eco
    packageName :=
      match v.affected with
      | [] => none
      | a :: _ => a.package.bind OsvPackage.name
    summary := v.summary.getD ""
    severity :=
      match v.severity with
      | [] => none
      | s :: _ => some (s.score.getD "UNKNOWN")
    publishedAt := v.published
    updatedAt := some now
    createdAt := some now }

/-- The `ON CONFLICT (id) DO UPDATE SET` clause of the `task_osv_pull`
upsert. -/
def osvTaskUpdate (old new : OsvTaskRow) : OsvTaskRow :=
  { old with
    ecosystem := new.ecosystem
    packageName := new.packageName
    summary := new.summary
    severity := new.severity
    publishedAt := new.publishedAt
    updatedAt := new.updatedAt }

/-- One record of the inner loop of `task_osv_pull`: a falsy id is a
`continue`, otherwise the record is upserted and counted. -/
def osvEcoStep (now : String) (eco : String) (acc : List OsvTaskRow × Nat)
    (v : OsvJson) : List OsvTaskRow × Nat :=
  match v.id with
  | none => acc
  | some vid =>
    if vid = "" then acc
    else (upsertRow OsvTaskRow.id osvTaskUpdate acc.1 (osvTaskRowOf now eco vid v),
          acc.2 + 1)

/-- The ecosystem loop of `task_osv_pull`: each ecosystem is queried in
turn (`query` yields the `vulns` array of the response, or the exception
the HTTP call raised); at most 50 records per ecosystem are processed.
The second component lists the ecosystems actually queried: an exception
propagates at once, so the loop stops at the first failing ecosystem. -/
def osvLoop (now : String) (query : String → Except Unit (List OsvJson)) :
    List String → (List OsvTaskRow × Nat) →
    Except Unit (List OsvTaskRow × Nat) × List String
  | [], acc => (Except.ok acc, [])
  | eco :: rest, acc =>
    match query eco with
    | Except.error e => (Except.error e, [eco])
    | Except.ok vulns =>
      let r := osvLoop now query rest ((vulns.take 50).foldl (osvEcoStep now eco) acc)
      (r.1, eco :: r.2)

/-- `task_osv_pull`: on success the transaction is committed and the
SUCCESS count recorded; an exception in any ecosystem reaches the outer
handler, the connection is closed without commit (discarding every
upsert of the run) and an ERROR status is recorded before re-raising.
Returns the committed store, the recorded status and the list of
ecosystems that were queried. -/
def task_osv_pull (now : String) (query : String → Except Unit (List OsvJson))
    (store : List OsvTaskRow) : (List OsvTaskRow × Status) × List String :=
  match osvLoop now query osvEcosystems (store, 0) with
  | (Except.ok (store2, n), qs) => ((store2, Status.success n), qs)
  | (Except.error _, qs) => ((store, Status.errored), qs)

/-! ### clients/http.py: the retrying transport -/

/-- Default retry count of `Http.__init__`. -/
def httpDefaultRetries : Nat := 3

/-- Default backoff base of `Http.__init__` (1.5). -/
def httpDefaultBackoff : ℚ := 3 / 2

/-- The retry loop of `Http._call`, holding the current attempt index
and the number of attempts still allowed after it.  `attempts i` is the
outcome of the i-th request (0-based).  Returns the final outcome and
the list of back-off sleeps performed: after a failed attempt `i` that
is not the last, the code sleeps `backoff ^ (i + 1)` seconds; the last
allowed attempt re-raises without sleeping. -/
def httpCallLoop {ε ρ : Type} (backoff : ℚ) (attempts : Nat → Except ε ρ) :
    Nat → Nat → Except ε ρ × List ℚ
  | i, 0 => (attempts i, [])
  | i, rem + 1 =>
    match attempts i with
    | Except.ok r => (Except.ok r, [])
    | Except.error _ =>
      let rest := httpCallLoop backoff attempts (i + 1) rem
      (rest.1, backoff ^ (i + 1) :: rest.2)

/-- `Http._call`: up to `retries + 1` attempts. -/
def httpCall {ε ρ : Type} (retries : Nat) (backoff : ℚ)
    (attempts : Nat → Except ε ρ) : Except ε ρ × List ℚ :=
  httpCallLoop backoff attempts 0 retries

/-! ### apps/api/main.py: manual trigger with cool-down -/

/-- The valid source kinds of `trigger_source_run`. -/
def validKinds : List String :=
  ["NVD", "OSV", "GHSA", "RSS", "MSRC", "CISA_KEV"]

/-- The task name dispatched per kind. -/
def taskMapList : List (String × String) :=
  [("NVD", "tasks.task_nvd_pull"),
   ("OSV", "tasks.task_osv_pull"),
   ("GHSA", "tasks.task_ghsa_pull"),
   ("RSS", "tasks.task_rss_pull_all"),
   ("MSRC", "tasks.task_msrc_pull"),
   ("CISA_KEV", "tasks.task_cisa_kev_sync")]

/-- Cool-down of the manual trigger, seconds (`setex(key, 120, 1)`). -/
def coolDownSeconds : Nat := 120

inductive TriggerOutcome
  | accepted
  | rateLimited
  | invalidKind
deriving DecidableEq, Repr

/-- The Redis rate-limit state: one entry per key still alive, holding
its expiry instant.  `EXISTS rate_limit:kind` is true while the current
time is before the expiry. -/
def rateKeyActive (st : List (String × Nat)) (kind : String) (now : Nat) : Bool :=
  st.any (fun p => p.1 = kind && decide (now < p.2))

/-- `SETEX rate_limit:kind 120 1`: replaces any previous entry for the
key and sets its expiry. -/
def redisSetex (st : List (String × Nat)) (kind : String) (expiry : Nat) :
    List (String × Nat) :=
  (st.filter (fun p => p.1 ≠ kind)) ++ [(kind, expiry)]

/-- `POST /admin/run/(kind)`: validity check, then the rate-limit check
(a 429 rejection leaves the state untouched and enqueues nothing), then
set the cool-down marker and enqueue the mapped Celery task.  Returns
the outcome, the new rate-limit state and the enqueued task name. -/
def trigger_source_run (st : List (String × Nat)) (kind : String) (now : Nat) :
    TriggerOutcome × List (String × Nat) × Option String :=
  if ¬ validKinds.contains kind then (TriggerOutcome.invalidKind, st, none)
  else if rateKeyActive st kind now then (TriggerOutcome.rateLimited, st, none)
  else (TriggerOutcome.accepted, redisSetex st kind (now + coolDownSeconds),
        taskMapList.lookup kind)

/-! ### clients/ghsa.py, tasks.py GHSA guard, ai.py summarize -/

/-- `clients/ghsa.py` `fetch_updated_since`: without a truthy token the
function returns an empty list before any network call; `net` stands for
the GraphQL round-trip and response extraction. -/
def fetch_updated_since {α : Type} (token : Option String)
    (net : Unit → List α) : List α :=
  if pyTruthyStr token then net () else []

/-- The credential guard of `task_ghsa_pull`: without a truthy token the
task records a SKIPPED status and returns before fetching anything;
`run` stands for the rest of the task body. -/
def task_ghsa_pull {σ : Type} (token : Option String)
    (run : Unit → σ × Status) (s : σ) : σ × Status :=
  if pyTruthyStr token then run ()
  else (s, Status.skipped "No GitHub token configured")

/-- System prompt of the executive half of `ai.py`. -/
def EXEC_SYS : String :=
  "You summarize security advisories for executives. Be concise (<=80 words)."

/-- System prompt of the technical half of `ai.py`. -/
def TECH_SYS : String :=
  "You summarize security advisories for security engineers. Return 3-5 terse bullets (affected products, CVEs, mitigations)."

/-- `ai.py` `_chat`: without a key the call returns `none` immediately;
otherwise the backend answers, and a caught exception is also `none`. -/
def chatCall (key : String) (backend : String → String → Option String)
    (systemPrompt userText : String) : Option String :=
  if key = "" then none else backend systemPrompt userText

/-- `ai.py` `summarize`: falsy text is `none`; two independent chat
calls; when at least one half is truthy the pair is returned with empty
strings for the missing half, otherwise `none`. -/
def summarize (key : String) (backend : String → String → Option String)
    (text : String) : Option (String × String) :=
  if text = "" then none
  else
    let e := chatCall key backend EXEC_SYS text
    let t := chatCall key backend TECH_SYS text
    if pyTruthyStr e || pyTruthyStr t then some (e.getD "", t.getD "")
    else none

/-! ### Auxiliary lemmas -/

theorem coalesce_self (a : Option String) : coalesce a a = a := by
  cases a <;> rfl

theorem coalesce_absorb (a b : Option String) :
    coalesce a (coalesce a b) = coalesce a b := by
  cases a <;> rfl

theorem length_filter_map {α β : Type} (f : α → β) (p : β → Bool) (l : List α) :
    ((l.map f).filter p).length = (l.filter (fun a => p (f a))).length := by
  induction l with
  | nil => rfl
  | cons a tl ih =>
    by_cases h : p (f a) <;> simp [List.filter_cons, h, ih]

/-! ### Sample data used by concrete instances -/

/-- A stored row of the `cves` table. -/
def sampleTCveRow (cid : String) (flag : Bool) : TCveRow :=
  { id := cid
    orgId := "default_org"
    description := "stored description"
    severity := none
    baseScore := none
    vector := none
    cweIds := []
    cpes := []
    publishedAt := none
    updatedAt := none
    createdAt := none
    isKev := flag }

/-- A minimal upstream CVE record carrying just an identifier. -/
def cveJsonNamed (s : String) : CveJson :=
  { id := some s
    cveDataMetaId := none
    descriptions := []
    cvssMetricV31 := none
    cvssMetricV3 := none
    weaknesses := []
    configurations := []
    published := none
    lastModified := none }

/-- A stored row of the "Cve" table of `db.py`. -/
def sampleDbCveRow (cid : String) (flag : Bool) : DbCveRow :=
  { id := cid
    publishedAt := none
    modifiedAt := none
    sourceRaw := cveJsonNamed cid
    cvssScore := none
    cvssSeverity := none
    cwes := []
    cpes := []
    isKev := flag }

/-- A stored Advisory with non-empty summaries. -/
def advStored : AdvisoryRow :=
  { id := "ADV-1"
    source := "RSS"
    title := some "old title"
    link := some "https://example.org/a"
    publishedAt := some "2025-09-01"
    sourceRaw := "old raw"
    summary := some "stored executive summary"
    summaryTech := some "stored technical summary"
    tags := [] }

/-- A later fetch of the same advisory whose summarization produced
empty strings (the summarization helper returns empty strings, not
NULLs, when one half fails). -/
def advEmptySummaries : AdvisoryRow :=
  { advStored with
    title := some "new title"
    sourceRaw := "new raw"
    summary := some ""
    summaryTech := some "" }

/-- A later fetch of the same advisory carrying no summaries at all. -/
def advNoSummaries : AdvisoryRow :=
  { advStored with
    title := some "new title"
    sourceRaw := "new raw"
    summary := none
    summaryTech := none }

/-! ### C1 -/

/-- C1, counterexample: `upsert_advisory` coalesces only SQL NULL; an
upsert whose summaries are present but empty strings replaces the
stored non-empty summaries with empty strings, so an upsert carrying
empty summaries does not leave the stored summaries unchanged. -/
theorem advisory_coalesce_counterexample :
    (upsert_advisory [advStored] advEmptySummaries).map
        (fun r => (r.summary, r.summaryTech))
      = [(some "", some "")] ∧
    ¬ ((upsert_advisory [advStored] advEmptySummaries).map (fun r => r.summary)
        = [some "stored executive summary"]) := by
  decide

/-- C1, amended: in `upsert_advisory`, an upsert carrying absent (NULL)
summaries leaves the stored summary and summaryTech unchanged, while an
upsert carrying present summaries — the empty string included — replaces
them; source, title, link, publishedAt and sourceRaw are overwritten in
both cases.  The advisory upsert of `task_ghsa_pull`, keyed by
sourceUrl, overwrites summary and summaryTech unconditionally. -/
theorem advisory_upsert_summary_semantics :
    (∀ old new : AdvisoryRow, new.summary = none → new.summaryTech = none →
      (dbAdvisoryUpdate old new).summary = old.summary ∧
      (dbAdvisoryUpdate old new).summaryTech = old.summaryTech) ∧
    (∀ (old new : AdvisoryRow) (s t : String), new.summary = some s →
      new.summaryTech = some t →
      (dbAdvisoryUpdate old new).summary = some s ∧
      (dbAdvisoryUpdate old new).summaryTech = some t) ∧
    (∀ old new : AdvisoryRow,
      (dbAdvisoryUpdate old new).source = new.source ∧
      (dbAdvisoryUpdate old new).title = new.title ∧
      (dbAdvisoryUpdate old new).link = new.link ∧
      (dbAdvisoryUpdate old new).publishedAt = new.publishedAt ∧
      (dbAdvisoryUpdate old new).sourceRaw = new.sourceRaw) ∧
    (∀ (db : List AdvisoryRow) (old new : AdvisoryRow),
      old ∈ db → old.id = new.id →
      dbAdvisoryUpdate old new ∈ upsert_advisory db new) ∧
    (∀ old new : GhsaAdvRow,
      (ghsaAdvUpdate old new).summary = new.summary ∧
      (ghsaAdvUpdate old new).summaryTech = new.summaryTech) := by
  refine ⟨?_, ?_, ?_, ?_, ?_⟩
  · intro old new hs ht
    simp [dbAdvisoryUpdate, coalesce, hs, ht]
  · intro old new s t hs ht
    simp [dbAdvisoryUpdate, coalesce, hs, ht]
  · intro old new
    simp [dbAdvisoryUpdate]
  · intro db old new hmem hid
    exact upsertRow_update_mem _ _ _ _ _ hmem hid
  · intro old new
    simp [ghsaAdvUpdate]

/-- C1, witness: the stored advisory keeps its summaries under an upsert
with absent summaries, and the updated row is what the table then
holds. -/
theorem advisory_upsert_summary_semantics_witness :
    (dbAdvisoryUpdate advStored advNoSummaries).summary
        = some "stored executive summary" ∧
    (dbAdvisoryUpdate advStored advNoSummaries).title = some "new title" ∧
    dbAdvisoryUpdate advStored advNoSummaries
        ∈ upsert_advisory [advStored] advNoSummaries := by
  refine ⟨?_, ?_, ?_⟩
  · exact (advisory_upsert_summary_semantics.1 advStored advNoSummaries rfl rfl).1.trans
      (by decide)
  · exact (advisory_upsert_summary_semantics.2.2.1 advStored advNoSummaries).2.1.trans
      (by decide)
  · exact advisory_upsert_summary_semantics.2.2.2.1 [advStored] advStored advNoSummaries
      (List.mem_singleton.mpr rfl) rfl

/-! ### C4 -/

/-- C4: each of the three db.py upserts is idempotent — a second
application with the same input does not change the table — and, over a
table whose keys are distinct, the upserted identifier occupies exactly
one row afterwards. -/
theorem upsert_idempotent :
    (∀ (db : List DbCveRow) (cve : CveJson) (kev : List String),
      (upsert_cve (upsert_cve db cve kev) cve kev = upsert_cve db cve kev) ∧
      (∀ cid : String, (db.map DbCveRow.id).Nodup →
        pyOr cve.id cve.cveDataMetaId = some cid → cid ≠ "" →
        (rowsWithKey DbCveRow.id cid (upsert_cve db cve kev)).length = 1)) ∧
    (∀ (db : List DbOsvRow) (v : OsvJson),
      (upsert_osv (upsert_osv db v) v = upsert_osv db v) ∧
      ((db.map DbOsvRow.id).Nodup →
        (rowsWithKey DbOsvRow.id v.id (upsert_osv db v)).length = 1)) ∧
    (∀ (db : List AdvisoryRow) (new : AdvisoryRow),
      (upsert_advisory (upsert_advisory db new) new = upsert_advisory db new) ∧
      ((db.map AdvisoryRow.id).Nodup →
        (rowsWithKey AdvisoryRow.id new.id (upsert_advisory db new)).length = 1)) := by
  refine ⟨?_, ?_, ?_⟩
  · intro db cve kev
    constructor
    · cases hx : pyOr cve.id cve.cveDataMetaId with
      | none => simp [upsert_cve, hx]
      | some cid =>
        by_cases hc : cid = ""
        · simp [upsert_cve, hx, hc]
        · simp only [upsert_cve, hx, if_neg hc]
          exact upsertRow_idem DbCveRow.id dbCveUpdate (fun o n => rfl) (fun o n => rfl)
            (fun n => rfl) db (dbCveRowOf cve kev cid)
    · intro cid hnd hid hne
      simp only [upsert_cve, hid, if_neg hne]
      exact upsertRow_count DbCveRow.id dbCveUpdate (fun o n => rfl) db
        (dbCveRowOf cve kev cid) hnd
  · intro db v
    refine ⟨?_, ?_⟩
    · exact upsertRow_idem DbOsvRow.id dbOsvUpdate (fun o n => rfl) (fun o n => rfl)
        (fun n => rfl) db (dbOsvRowOf v)
    · intro hnd
      exact upsertRow_count DbOsvRow.id dbOsvUpdate (fun o n => rfl) db (dbOsvRowOf v) hnd
  · intro db new
    refine ⟨?_, ?_⟩
    · refine upsertRow_idem AdvisoryRow.id dbAdvisoryUpdate (fun o n => rfl) ?_ ?_ db new
      · intro o n
        simp [dbAdvisoryUpdate, coalesce_absorb]
      · intro n
        simp [dbAdvisoryUpdate, coalesce_self]
    · intro hnd
      exact upsertRow_count AdvisoryRow.id dbAdvisoryUpdate (fun o n => rfl) db new hnd

/-- C4, witness: re-ingesting a fresh advisory and a fresh CVE changes
nothing and each identifier occupies exactly one row. -/
theorem upsert_idempotent_witness :
    upsert_advisory (upsert_advisory [] advStored) advStored
        = upsert_advisory [] advStored ∧
    (rowsWithKey AdvisoryRow.id "ADV-1" (upsert_advisory [] advStored)).length = 1 ∧
    (rowsWithKey DbCveRow.id "CVE-A"
        (upsert_cve [sampleDbCveRow "CVE-B" false] (cveJsonNamed "CVE-A") [])).length = 1 := by
  refine ⟨(upsert_idempotent.2.2 [] advStored).1, ?_, ?_⟩
  · exact (upsert_idempotent.2.2 [] advStored).2 (by decide)
  · exact (upsert_idempotent.1 [sampleDbCveRow "CVE-B" false] (cveJsonNamed "CVE-A") []).2
      "CVE-A" (by decide) (by decide) (by decide)

/-! ### C2 and C10 -/

/-- Helper: after the KEV sync, a row of the table is flagged exactly
when its identifier is in the snapshot. -/
theorem kevSync_mem_flag (now : String) (snapshot : List String)
    (db : List TCveRow) :
    ∀ r ∈ (task_cisa_kev_sync now snapshot db).1,
      r.isKev = snapshot.contains r.id := by
  intro r hr
  simp only [task_cisa_kev_sync] at hr
  by_cases hs : snapshot.isEmpty
  · rw [if_pos hs] at hr
    obtain ⟨r0, _, rfl⟩ := List.mem_map.mp hr
    have hsnil : snapshot = [] := List.isEmpty_iff.mp hs
    subst hsnil
    simp
  · rw [if_neg hs] at hr
    obtain ⟨r1, hr1, rfl⟩ := List.mem_map.mp hr
    obtain ⟨r0, _, rfl⟩ := List.mem_map.mp hr1
    by_cases hc : r0.id ∈ snapshot
    · simp [hc]
    · simp [hc]

/-- C2, counterexample: with rows A and B stored and flagged, syncing
the snapshot (B, C) where C is not stored flags exactly B — a snapshot
identifier with no stored record never carries the flag, so afterwards
the flagged set is not (B, C). -/
theorem kev_sync_unstored_counterexample :
    ((task_cisa_kev_sync "t" ["CVE-B", "CVE-C"]
        [sampleTCveRow "CVE-A" true, sampleTCveRow "CVE-B" true]).1.filter
        (fun r => r.isKev)).map TCveRow.id = ["CVE-B"] ∧
    ¬ ("CVE-C" ∈ ((task_cisa_kev_sync "t" ["CVE-B", "CVE-C"]
        [sampleTCveRow "CVE-A" true, sampleTCveRow "CVE-B" true]).1.filter
        (fun r => r.isKev)).map TCveRow.id) := by
  decide

/-- C2, amended: after the KEV sync exactly the stored rows whose
identifier is in the snapshot carry the flag, independent of the prior
flags; in particular, if A and B are stored and flagged and C is also
stored, syncing the snapshot (B, C) leaves exactly B and C flagged and
unflags A. -/
theorem kev_sync_full_replace_on_stored :
    (∀ (now : String) (snapshot : List String) (db : List TCveRow),
      ∀ r ∈ (task_cisa_kev_sync now snapshot db).1,
        r.isKev = snapshot.contains r.id) ∧
    ((task_cisa_kev_sync "t" ["CVE-B", "CVE-C"]
        [sampleTCveRow "CVE-A" true, sampleTCveRow "CVE-B" true,
         sampleTCveRow "CVE-C" false]).1.map (fun r => (r.id, r.isKev))
      = [("CVE-A", false), ("CVE-B", true), ("CVE-C", true)]) := by
  exact ⟨kevSync_mem_flag, by decide⟩

/-- C2, witness: the flag law applied to the concrete post-sync row of a
one-row table. -/
theorem kev_sync_full_replace_on_stored_witness :
    ({ sampleTCveRow "CVE-B" false with isKev := true, updatedAt := some "t" } : TCveRow).isKev
      = (["CVE-B"] : List String).contains
          ({ sampleTCveRow "CVE-B" false with isKev := true, updatedAt := some "t" } : TCveRow).id := by
  exact kev_sync_full_replace_on_stored.1 "t" ["CVE-B"] [sampleTCveRow "CVE-B" false]
    { sampleTCveRow "CVE-B" false with isKev := true, updatedAt := some "t" } (by decide)

/-- C10: the KEV sync only mutates rows in place — it never inserts —
so per position the identifier is kept and the flag becomes membership
in the snapshot, and the reported success count is the number of stored
identifiers that are in the snapshot, not the snapshot size. -/
theorem kev_sync_intersection (now : String) (snapshot : List String)
    (db : List TCveRow) :
    ((task_cisa_kev_sync now snapshot db).1.map (fun r => (r.id, r.isKev))
      = db.map (fun r => (r.id, snapshot.contains r.id))) ∧
    ((task_cisa_kev_sync now snapshot db).2
      = Status.success
          ((db.map TCveRow.id).filter (fun i => snapshot.contains i)).length) := by
  have hrows : (task_cisa_kev_sync now snapshot db).1.map (fun r => (r.id, r.isKev))
      = db.map (fun r => (r.id, snapshot.contains r.id)) := by
    simp only [task_cisa_kev_sync]
    by_cases hs : snapshot.isEmpty
    · rw [if_pos hs]
      have hsnil : snapshot = [] := List.isEmpty_iff.mp hs
      subst hsnil
      simp [kevClear, List.map_map, Function.comp]
    · rw [if_neg hs]
      simp only [kevMark, kevClear, List.map_map]
      apply List.map_congr_left
      intro r _
      by_cases hc : r.id ∈ snapshot
      · simp [Function.comp, hc]
      · simp [Function.comp, hc]
  refine ⟨hrows, ?_⟩
  have hlen : ((task_cisa_kev_sync now snapshot db).1.filter
      (fun r => r.isKev)).length
      = (db.filter (fun r => snapshot.contains r.id)).length := by
    have h1 := congrArg (fun l => (l.filter (fun p : String × Bool => p.2)).length) hrows
    simp only at h1
    rw [length_filter_map, length_filter_map] at h1
    exact h1
  have h2 : ((db.map TCveRow.id).filter (fun i => snapshot.contains i)).length
      = (db.filter (fun r => snapshot.contains r.id)).length := by
    rw [length_filter_map]
  simp only [task_cisa_kev_sync] at hlen ⊢
  rw [h2, ← hlen]

/-! ### C3 -/

/-- C3, counterexample: `db.py` `upsert_cve` writes
`isKev = EXCLUDED.isKev` on conflict, so re-ingesting a flagged CVE with
a `kev_ids` set that does not contain it clears the stored flag — the
CVE upsert does not leave the known-exploited flag unchanged. -/
theorem db_upsert_cve_flag_counterexample :
    (upsert_cve [sampleDbCveRow "CVE-A" true] (cveJsonNamed "CVE-A") []).map
        (fun r => (r.id, r.isKev)) = [("CVE-A", false)] ∧
    ¬ ((upsert_cve [sampleDbCveRow "CVE-A" true] (cveJsonNamed "CVE-A") []).map
        (fun r => r.isKev) = [true]) := by
  decide

/-- C3, amended: the CVE upsert of `task_nvd_pull` overwrites the
derived fields (description, severity, score, vector, weaknesses,
platforms, timestamps; it carries no raw-payload column) and leaves the
known-exploited flag, orgId and createdAt unchanged on conflict; the
`db.py` `upsert_cve`, by contrast, recomputes the flag from its
`kev_ids` argument on every ingestion, so there the flag is not
independent of CVE ingestion. -/
theorem cve_upsert_flag_semantics :
    (∀ old new : TCveRow,
      (nvdTaskUpdate old new).isKev = old.isKev ∧
      (nvdTaskUpdate old new).orgId = old.orgId ∧
      (nvdTaskUpdate old new).createdAt = old.createdAt ∧
      (nvdTaskUpdate old new).description = new.description ∧
      (nvdTaskUpdate old new).severity = new.severity ∧
      (nvdTaskUpdate old new).baseScore = new.baseScore ∧
      (nvdTaskUpdate old new).vector = new.vector ∧
      (nvdTaskUpdate old new).cweIds = new.cweIds ∧
      (nvdTaskUpdate old new).cpes = new.cpes ∧
      (nvdTaskUpdate old new).publishedAt = new.publishedAt ∧
      (nvdTaskUpdate old new).updatedAt = new.updatedAt) ∧
    (∀ (now : String) (store : List TCveRow) (p : NvdParsed) (old : TCveRow),
      old ∈ store → old.id = p.id →
      nvdTaskUpdate old (nvdRowOf now p) ∈ taskNvdUpsert now store p) ∧
    (∀ (db : List DbCveRow) (cve : CveJson) (kev : List String) (cid : String),
      pyOr cve.id cve.cveDataMetaId = some cid → cid ≠ "" →
      ∀ r ∈ upsert_cve db cve kev, r.id = cid → r.isKev = kev.contains cid) := by
  refine ⟨?_, ?_, ?_⟩
  · intro old new
    simp [nvdTaskUpdate]
  · intro now store p old hmem hid
    exact upsertRow_update_mem TCveRow.id nvdTaskUpdate store (nvdRowOf now p) old hmem hid
  · intro db cve kev cid hid hne r hr hrid
    simp only [upsert_cve, hid, if_neg hne] at hr
    exact upsertRow_key_prop DbCveRow.id dbCveUpdate db (dbCveRowOf cve kev cid)
      (fun x => x.isKev = kev.contains cid) rfl (fun o _ => rfl) r hr hrid

/-- Freshly parsed sample record for the same identifier. -/
def sampleNvdParsed : NvdParsed :=
  { id := "CVE-A"
    description := "new description"
    severity := none
    baseScore := none
    vector := none
    cweIds := []
    cpes := []
    publishedAt := none }

/-- C3, witness: updating a stored flagged row from a freshly parsed
record keeps the flag and takes the new description, and the updated row
is in the upserted table. -/
theorem cve_upsert_flag_semantics_witness :
    (nvdTaskUpdate (sampleTCveRow "CVE-A" true) (nvdRowOf "t" sampleNvdParsed)).isKev
        = true ∧
    nvdTaskUpdate (sampleTCveRow "CVE-A" true) (nvdRowOf "t" sampleNvdParsed)
      ∈ taskNvdUpsert "t" [sampleTCveRow "CVE-A" true] sampleNvdParsed ∧
    (∀ r ∈ upsert_cve [sampleDbCveRow "CVE-A" true] (cveJsonNamed "CVE-A") [],
      r.id = "CVE-A" → r.isKev = ([] : List String).contains "CVE-A") := by
  refine ⟨?_, ?_, ?_⟩
  · exact ((cve_upsert_flag_semantics.1 (sampleTCveRow "CVE-A" true) _).1).trans (by decide)
  · exact cve_upsert_flag_semantics.2.1 "t" [sampleTCveRow "CVE-A" true] sampleNvdParsed
      (sampleTCveRow "CVE-A" true) (by decide) (by decide)
  · exact cve_upsert_flag_semantics.2.2 [sampleDbCveRow "CVE-A" true]
      (cveJsonNamed "CVE-A") [] "CVE-A" (by decide) (by decide)

/-! ### C5 -/

/-- Helper: when the attempts at indices `i, i+1, ...` fail `n` times
and then succeed, and `n` attempts remain allowed after the current one,
the loop returns the success, having slept `backoff ^ (attempt)` before
each retried attempt. -/
theorem httpCallLoop_succ {ε ρ : Type} (backoff : ℚ) (attempts : Nat → Except ε ρ) :
    ∀ (n rem i : Nat) (r : ρ), n ≤ rem →
      (∀ j, j < n → ∃ e, attempts (i + j) = Except.error e) →
      attempts (i + n) = Except.ok r →
      httpCallLoop backoff attempts i rem
        = (Except.ok r, (List.range n).map (fun j => backoff ^ (i + j + 1))) := by
  intro n
  induction n with
  | zero =>
    intro rem i r _ _ hok
    rw [Nat.add_zero] at hok
    cases rem with
    | zero => simp [httpCallLoop, hok]
    | succ m => simp [httpCallLoop, hok]
  | succ n ih =>
    intro rem i r hle hfail hok
    cases rem with
    | zero => omega
    | succ m =>
      obtain ⟨e, he⟩ := hfail 0 (Nat.succ_pos n)
      rw [Nat.add_zero] at he
      have hrest := ih m (i + 1) r (by omega)
        (fun j hj => by
          obtain ⟨e2, he2⟩ := hfail (j + 1) (by omega)
          exact ⟨e2, by rw [show i + 1 + j = i + (j + 1) by omega]; exact he2⟩)
        (by rw [show i + 1 + n = i + (n + 1) by omega]; exact hok)
      simp only [httpCallLoop, he, hrest]
      rw [Prod.mk.injEq]
      refine ⟨rfl, ?_⟩
      rw [List.range_succ_eq_map, List.map_cons, List.map_map]
      rw [List.cons.injEq]
      constructor
      · congr 1
      · apply List.map_congr_left
        intro j _
        simp only [Function.comp]
        congr 1
        omega

/-- Helper: when every attempt from index `i` through `i + rem` fails,
the loop re-raises the last failure after `rem` back-off sleeps. -/
theorem httpCallLoop_fail {ε ρ : Type} (backoff : ℚ) (attempts : Nat → Except ε ρ) :
    ∀ (rem i : Nat),
      (∀ j, j ≤ rem → ∃ e, attempts (i + j) = Except.error e) →
      httpCallLoop backoff attempts i rem
        = (attempts (i + rem), (List.range rem).map (fun j => backoff ^ (i + j + 1))) := by
  intro rem
  induction rem with
  | zero =>
    intro i _
    simp [httpCallLoop]
  | succ m ih =>
    intro i hfail
    obtain ⟨e, he⟩ := hfail 0 (Nat.zero_le _)
    rw [Nat.add_zero] at he
    have hrest := ih (i + 1)
      (fun j hj => by
        obtain ⟨e2, he2⟩ := hfail (j + 1) (by omega)
        exact ⟨e2, by rw [show i + 1 + j = i + (j + 1) by omega]; exact he2⟩)
    simp only [httpCallLoop, he, hrest]
    rw [Prod.mk.injEq]
    constructor
    · rw [show i + 1 + m = i + (m + 1) by omega]
    · rw [List.range_succ_eq_map, List.map_cons, List.map_map]
      rw [List.cons.injEq]
      constructor
      · congr 1
      · apply List.map_congr_left
        intro j _
        simp only [Function.comp]
        congr 1
        omega

/-- C5: an attempt that succeeds within the allowed attempts makes
`Http._call` return that response with no failure visible to the caller,
after sleeping `backoff ^ attempt` seconds between consecutive attempts;
when every allowed attempt fails the call raises the transport failure
after the same back-off schedule.  The defaults are 3 retries (4 total
attempts) with base 1.5. -/
theorem http_retry_semantics {ε ρ : Type} (retries : Nat) (backoff : ℚ)
    (attempts : Nat → Except ε ρ) :
    (∀ (i : Nat) (r : ρ), i ≤ retries →
      (∀ j, j < i → ∃ e, attempts j = Except.error e) →
      attempts i = Except.ok r →
      httpCall retries backoff attempts
        = (Except.ok r, (List.range i).map (fun j => backoff ^ (j + 1)))) ∧
    ((∀ j, j ≤ retries → ∃ e, attempts j = Except.error e) →
      (∃ e, (httpCall retries backoff attempts).1 = Except.error e) ∧
      (httpCall retries backoff attempts).2
        = (List.range retries).map (fun j => backoff ^ (j + 1))) ∧
    (httpDefaultRetries = 3 ∧ httpDefaultBackoff = 3 / 2) := by
  refine ⟨?_, ?_, rfl, rfl⟩
  · intro i r hle hfail hok
    have h := httpCallLoop_succ backoff attempts i retries 0 r hle
      (fun j hj => by simpa using hfail j hj) (by simpa using hok)
    simpa [httpCall] using h
  · intro hfail
    have h := httpCallLoop_fail backoff attempts retries 0
      (fun j hj => by simpa using hfail j hj)
    obtain ⟨e, he⟩ := hfail retries (le_refl retries)
    constructor
    · refine ⟨e, ?_⟩
      simp only [httpCall, h]
      simpa using he
    · simp only [httpCall, h]
      apply List.map_congr_left
      intro j _
      congr 1
      omega

/-- Concrete attempt sequence that fails twice and succeeds on the
third attempt. -/
def attemptsThirdOk : Nat → Except Unit Nat :=
  fun j => if j < 2 then Except.error () else Except.ok 7

/-- C5, witness: with the default policy, failing twice then succeeding
returns the success after sleeps of 1.5 and 1.5 squared seconds, and
four straight failures raise the error after three sleeps. -/
theorem http_retry_semantics_witness :
    httpCall httpDefaultRetries httpDefaultBackoff attemptsThirdOk
      = (Except.ok 7, (List.range 2).map (fun j => httpDefaultBackoff ^ (j + 1))) ∧
    (∃ e, (httpCall httpDefaultRetries httpDefaultBackoff
        (fun (_ : Nat) => (Except.error () : Except Unit Nat))).1 = Except.error e) ∧
    (httpCall httpDefaultRetries httpDefaultBackoff
        (fun (_ : Nat) => (Except.error () : Except Unit Nat))).2
      = (List.range 3).map (fun j => httpDefaultBackoff ^ (j + 1)) := by
  refine ⟨?_, ?_, ?_⟩
  · exact (http_retry_semantics httpDefaultRetries httpDefaultBackoff attemptsThirdOk).1
      2 7 (by decide)
      (fun j hj => ⟨(), by simp [attemptsThirdOk, hj]⟩)
      rfl
  · exact ((http_retry_semantics httpDefaultRetries httpDefaultBackoff
      (fun (_ : Nat) => (Except.error () : Except Unit Nat))).2.1
        (fun j _ => ⟨(), rfl⟩)).1
  · exact ((http_retry_semantics httpDefaultRetries httpDefaultBackoff
      (fun (_ : Nat) => (Except.error () : Except Unit Nat))).2.1
        (fun j _ => ⟨(), rfl⟩)).2

/-! ### C6 -/

/-- Helper: when the ecosystems before `eco` all answer and `eco`
raises, the loop propagates the exception at once, having queried only
the prefix and `eco` itself. -/
theorem osvLoop_error_at (now : String) (query : String → Except Unit (List OsvJson)) :
    ∀ (pre : List String) (eco : String) (post : List String)
      (acc : List OsvTaskRow × Nat),
      (∀ x ∈ pre, ∃ d, query x = Except.ok d) → query eco = Except.error () →
      osvLoop now query (pre ++ eco :: post) acc = (Except.error (), pre ++ [eco]) := by
  intro pre
  induction pre with
  | nil =>
    intro eco post acc _ heco
    simp [osvLoop, heco]
  | cons x tl ih =>
    intro eco post acc hpre heco
    obtain ⟨d, hd⟩ := hpre x (List.mem_cons_self x tl)
    have hrest := ih eco post ((d.take 50).foldl (osvEcoStep now x) acc)
      (fun y hy => hpre y (List.mem_cons_of_mem x hy)) heco
    simp [osvLoop, hd, hrest]

/-- Concrete query oracle: the PyPI query raises, every other ecosystem
answers with one record. -/
def osvQueryPyPIFails : String → Except Unit (List OsvJson) :=
  fun eco =>
    if eco = "PyPI" then Except.error ()
    else Except.ok
      [{ id := some (String.append "OSV-" eco)
         summary := some "a summary"
         affected := []
         severity := []
         published := none
         modified := none }]

/-- C6, counterexample: with the PyPI query failing, the run queries
only npm and PyPI, commits nothing (so the Go record is not upserted
even though its query would have succeeded) and ends in an error status
— one failing ecosystem does abort the others and fails the run. -/
theorem osv_failure_aborts_counterexample :
    task_osv_pull "t" osvQueryPyPIFails [] = (([], Status.errored), ["npm", "PyPI"]) ∧
    ¬ (∃ r ∈ (task_osv_pull "t" osvQueryPyPIFails []).1.1, r.id = "OSV-Go") := by
  decide

/-- C6, amended: an exception in one ecosystem query of `task_osv_pull`
propagates out of the shared loop: the ecosystems after the failing one
are never queried, the transaction is closed without commit so no record
of the run — the earlier successful ecosystems included — is stored, and
the run records an error status. -/
theorem osv_failure_aborts_run (now : String)
    (query : String → Except Unit (List OsvJson)) (store : List OsvTaskRow)
    (pre : List String) (eco : String) (post : List String)
    (hsplit : osvEcosystems = pre ++ eco :: post)
    (hpre : ∀ x ∈ pre, ∃ d, query x = Except.ok d)
    (heco : query eco = Except.error ()) :
    task_osv_pull now query store = ((store, Status.errored), pre ++ [eco]) := by
  have h := osvLoop_error_at now query pre eco post (store, 0) hpre heco
  simp only [task_osv_pull, hsplit, h]

/-- C6, witness: the abort law applied to the concrete oracle: npm
succeeds, PyPI fails, and the run ends with nothing stored and the four
remaining ecosystems unqueried. -/
theorem osv_failure_aborts_run_witness :
    task_osv_pull "t" osvQueryPyPIFails []
      = (([], Status.errored), ["npm"] ++ ["PyPI"]) := by
  exact osv_failure_aborts_run "t" osvQueryPyPIFails [] ["npm"] "PyPI"
    ["Go", "Maven", "NuGet", "RubyGems"] rfl
    (fun x hx => by
      have hxe : x = "npm" := by simpa using hx
      subst hxe
      exact ⟨_, rfl⟩)
    rfl

/-! ### C7 -/

/-- Helper: a record whose extraction raises aborts the record loop of
`task_nvd_pull`, whatever was already upserted before it. -/
theorem nvdLoop_error_at (now : String) :
    ∀ (pre : List CveJson) (c : CveJson) (post : List CveJson)
      (store : List TCveRow) (n : Nat) (e : PyErr),
      (∀ x ∈ pre, ∃ o, parseNvdRecord x = Except.ok o) →
      parseNvdRecord c = Except.error e →
      nvdLoop now (pre ++ c :: post) store n = Except.error e := by
  intro pre
  induction pre with
  | nil =>
    intro c post store n e _ hc
    simp [nvdLoop, hc]
  | cons x tl ih =>
    intro c post store n e hpre hc
    obtain ⟨o, ho⟩ := hpre x (List.mem_cons_self x tl)
    have htl : ∀ y ∈ tl, ∃ o2, parseNvdRecord y = Except.ok o2 :=
      fun y hy => hpre y (List.mem_cons_of_mem x hy)
    cases o with
    | none => simpa [nvdLoop, ho] using ih c post store n e htl hc
    | some p => simpa [nvdLoop, ho] using ih c post (taskNvdUpsert now store p) (n + 1) e htl hc

/-- A well-formed sample upstream record. -/
def nvdItemNamed (s : String) : CveJson :=
  { id := some s
    cveDataMetaId := none
    descriptions := [{ lang := some "en", value := some "a description" }]
    cvssMetricV31 := none
    cvssMetricV3 := none
    weaknesses := []
    configurations := []
    published := none
    lastModified := none }

/-- The first four records of the ten-record sample batches. -/
def nvdBatchHead : List CveJson :=
  [nvdItemNamed "CVE-1", nvdItemNamed "CVE-2", nvdItemNamed "CVE-3", nvdItemNamed "CVE-4"]

/-- The last five records of the ten-record sample batches. -/
def nvdBatchTail : List CveJson :=
  [nvdItemNamed "CVE-6", nvdItemNamed "CVE-7", nvdItemNamed "CVE-8",
   nvdItemNamed "CVE-9", nvdItemNamed "CVE-10"]

/-- Record number 5 with no identifier: the loop skips it. -/
def nvdItemNoId : CveJson :=
  { nvdItemNamed "CVE-5" with id := none }

/-- Record number 5 with the `cvssMetricV31` key present but holding an
empty array: the subscript `[0]` raises IndexError. -/
def nvdItemEmptyMetrics : CveJson :=
  { nvdItemNamed "CVE-5" with cvssMetricV31 := some [] }

/-- Batch of 10 whose record number 5 lacks an identifier. -/
def nvdBatchMissingId : List CveJson :=
  nvdBatchHead ++ nvdItemNoId :: nvdBatchTail

/-- Batch of 10 whose record number 5 raises during extraction. -/
def nvdBatchRaising : List CveJson :=
  nvdBatchHead ++ nvdItemEmptyMetrics :: nvdBatchTail

/-- C7, counterexample: a batch of 10 whose record number 5 cannot be
parsed (its `cvssMetricV31` key holds an empty array, so the `[0]`
subscript raises) makes the whole run fail with nothing committed — not
9 successful upserts and one skip. -/
theorem nvd_malformed_counterexample :
    task_nvd_pull "t" nvdBatchRaising [] = ([], Status.errored) ∧
    ¬ ((task_nvd_pull "t" nvdBatchRaising []).2 = Status.success 9) := by
  decide

/-- C7, amended: only a record whose identifier is absent is skipped
while the rest of the batch is upserted and the run succeeds — a batch
of 10 with record number 5 lacking an id yields 9 upserts, one skip and
a success status — whereas a record whose field extraction raises (for
example a present-but-empty `cvssMetricV31` array) aborts the whole run:
the remaining records are not processed, nothing is committed, and an
error status is recorded. -/
theorem nvd_batch_semantics :
    ((task_nvd_pull "t" nvdBatchMissingId []).2 = Status.success 9 ∧
     (task_nvd_pull "t" nvdBatchMissingId []).1.map TCveRow.id
       = ["CVE-1", "CVE-2", "CVE-3", "CVE-4", "CVE-6", "CVE-7", "CVE-8",
          "CVE-9", "CVE-10"]) ∧
    (∀ (now : String) (store : List TCveRow) (pre : List CveJson) (c : CveJson)
       (post : List CveJson) (e : PyErr),
      (∀ x ∈ pre, ∃ o, parseNvdRecord x = Except.ok o) →
      parseNvdRecord c = Except.error e →
      task_nvd_pull now (pre ++ c :: post) store = (store, Status.errored)) := by
  constructor
  · constructor
    · decide
    · decide
  · intro now store pre c post e hpre hc
    have h := nvdLoop_error_at now pre c post store 0 e hpre hc
    simp only [task_nvd_pull, h]

/-- C7, witness: the abort law applied to the concrete raising batch. -/
theorem nvd_batch_semantics_witness :
    task_nvd_pull "t" (nvdBatchHead ++ nvdItemEmptyMetrics :: nvdBatchTail) []
      = ([], Status.errored) := by
  exact nvd_batch_semantics.2 "t" [] nvdBatchHead nvdItemEmptyMetrics nvdBatchTail
    PyErr.indexError
    (fun x hx => by
      simp only [nvdBatchHead, List.mem_cons, List.not_mem_nil, or_false] at hx
      rcases hx with rfl | rfl | rfl | rfl <;> exact ⟨_, rfl⟩)
    rfl

/-! ### C8 -/

/-- Helper: after SETEX the only live entry for the key is the one just
set, so the key is active exactly until its expiry. -/
theorem rateKeyActive_setex (st : List (String × Nat)) (kind : String) (e t : Nat) :
    rateKeyActive (redisSetex st kind e) kind t = decide (t < e) := by
  simp only [rateKeyActive, redisSetex, List.any_append]
  have h1 : (st.filter (fun p => p.1 ≠ kind)).any
      (fun p => p.1 = kind && decide (t < p.2)) = false := by
    rw [List.any_eq_false]
    intro p hp
    have hne := (List.mem_filter.mp hp).2
    simp only [ne_eq, decide_not, Bool.not_eq_eq_eq_not, Bool.not_true,
      decide_eq_false_iff_not] at hne
    simp [hne]
  rw [h1]
  simp

/-- Helper: every valid kind is mapped to a task name. -/
theorem taskMap_total (kind : String) (h : validKinds.contains kind) :
    (taskMapList.lookup kind).isSome := by
  have hmem : kind ∈ validKinds := by simpa using h
  simp only [validKinds, List.mem_cons, List.not_mem_nil, or_false] at hmem
  rcases hmem with rfl | rfl | rfl | rfl | rfl | rfl <;> decide

/-- C8: a kind outside the valid set is rejected as invalid; a trigger
while the cool-down key is live is rejected as rate-limited with nothing
enqueued and the state untouched; an accepted trigger enqueues the
mapped task and sets a cool-down of 120 seconds for its kind, during
which any further trigger of that kind is rejected with nothing
enqueued, and after which a trigger is accepted again. -/
theorem trigger_rate_limiting :
    (∀ (st : List (String × Nat)) (kind : String) (now : Nat),
      ¬ validKinds.contains kind →
      trigger_source_run st kind now = (TriggerOutcome.invalidKind, st, none)) ∧
    (∀ (st : List (String × Nat)) (kind : String) (now : Nat),
      validKinds.contains kind → rateKeyActive st kind now = true →
      trigger_source_run st kind now = (TriggerOutcome.rateLimited, st, none)) ∧
    (∀ (st : List (String × Nat)) (kind : String) (t0 : Nat),
      validKinds.contains kind → rateKeyActive st kind t0 = false →
      (trigger_source_run st kind t0).1 = TriggerOutcome.accepted ∧
      ((trigger_source_run st kind t0).2.2).isSome ∧
      (∀ t, t < t0 + coolDownSeconds →
        trigger_source_run (trigger_source_run st kind t0).2.1 kind t
          = (TriggerOutcome.rateLimited, (trigger_source_run st kind t0).2.1, none)) ∧
      (∀ t, t0 + coolDownSeconds ≤ t →
        (trigger_source_run (trigger_source_run st kind t0).2.1 kind t).1
          = TriggerOutcome.accepted)) := by
  refine ⟨?_, ?_, ?_⟩
  · intro st kind now hv
    have hv2 : ¬ kind ∈ validKinds := by simpa using hv
    simp [trigger_source_run, hv2]
  · intro st kind now hv ha
    have hv2 : kind ∈ validKinds := by simpa using hv
    simp [trigger_source_run, hv2, ha]
  · intro st kind t0 hv ha
    have hv2 : kind ∈ validKinds := by simpa using hv
    have hstep : trigger_source_run st kind t0
        = (TriggerOutcome.accepted, redisSetex st kind (t0 + coolDownSeconds),
           taskMapList.lookup kind) := by
      simp [trigger_source_run, hv2, ha]
    refine ⟨by rw [hstep], ?_, ?_, ?_⟩
    · rw [hstep]
      exact taskMap_total kind hv
    · intro t ht
      rw [hstep]
      have hact : rateKeyActive (redisSetex st kind (t0 + coolDownSeconds)) kind t
          = true := by
        rw [rateKeyActive_setex]
        simpa using ht
      simp [trigger_source_run, hv2, hact]
    · intro t ht
      rw [hstep]
      have hact : rateKeyActive (redisSetex st kind (t0 + coolDownSeconds)) kind t
          = false := by
        rw [rateKeyActive_setex]
        simpa using Nat.not_lt.mpr ht
      simp [trigger_source_run, hv2, hact]

/-- C8, witness: from an empty rate-limit state, an NVD trigger at time
0 is accepted and enqueues a task; re-triggering at 60 seconds is
rejected with nothing enqueued; at 120 seconds it is accepted; the kind
FTP is rejected as invalid. -/
theorem trigger_rate_limiting_witness :
    (trigger_source_run [] "NVD" 0).1 = TriggerOutcome.accepted ∧
    ((trigger_source_run [] "NVD" 0).2.2).isSome ∧
    trigger_source_run (trigger_source_run [] "NVD" 0).2.1 "NVD" 60
      = (TriggerOutcome.rateLimited, (trigger_source_run [] "NVD" 0).2.1, none) ∧
    (trigger_source_run (trigger_source_run [] "NVD" 0).2.1 "NVD" 120).1
      = TriggerOutcome.accepted ∧
    trigger_source_run [] "FTP" 0 = (TriggerOutcome.invalidKind, [], none) := by
  have h := trigger_rate_limiting.2.2 [] "NVD" 0 (by decide) (by decide)
  refine ⟨h.1, h.2.1, h.2.2.1 60 (by decide), h.2.2.2 120 (by decide), ?_⟩
  exact trigger_rate_limiting.1 [] "FTP" 0 (by decide)

/-! ### C9 -/

/-- C9: an absent GHSA token makes the client fetch return the empty
sequence without touching the network and makes the task record a
SKIPPED status (not an error); an absent summarization key makes
`summarize` return none for every input. -/
theorem missing_credentials_soft_skip :
    (∀ (α : Type) (net : Unit → List α) (token : Option String),
      pyTruthyStr token = false → fetch_updated_since token net = []) ∧
    (∀ (σ : Type) (token : Option String) (run : Unit → σ × Status) (s : σ),
      pyTruthyStr token = false →
      task_ghsa_pull token run s = (s, Status.skipped "No GitHub token configured") ∧
      (task_ghsa_pull token run s).2 ≠ Status.errored) ∧
    (∀ (backend : String → String → Option String) (text : String),
      summarize "" backend text = none) := by
  refine ⟨?_, ?_, ?_⟩
  · intro α net token ht
    simp [fetch_updated_since, ht]
  · intro σ token run s ht
    constructor
    · simp [task_ghsa_pull, ht]
    · simp [task_ghsa_pull, ht]
  · intro backend text
    by_cases h : text = ""
    · simp [summarize, h]
    · simp [summarize, h, chatCall, pyTruthyStr]

/-- C9, witness: with no token the fetch is empty and the task is
skipped even when the network and the task body would answer; with no
key, summarize is none on concrete content even with a live backend. -/
theorem missing_credentials_soft_skip_witness :
    fetch_updated_since none (fun _ => [(1 : Nat), 2, 3]) = [] ∧
    task_ghsa_pull (some "") (fun _ => ((42 : Nat), Status.success 5)) 0
      = (0, Status.skipped "No GitHub token configured") ∧
    summarize "" (fun _ _ => some "a live answer") "advisory content" = none := by
  refine ⟨?_, ?_, ?_⟩
  · exact missing_credentials_soft_skip.1 Nat (fun _ => [1, 2, 3]) none rfl
  · exact (missing_credentials_soft_skip.2.1 Nat (some "")
      (fun _ => (42, Status.success 5)) 0 rfl).1
  · exact missing_credentials_soft_skip.2.2 (fun _ _ => some "a live answer")
      "advisory content"

end TIP
